import Mathlib

set_option maxRecDepth 16384

/-!
Formal model of the connection-handling core of domainsd
(src/tools/domainsd-cpp/domainsd.cpp).

Byte strings are modelled as lists of characters (`Str`). The C and C++
library routines the code relies on (ctype classifiers, std::stoi /
std::stoul / std::stoull, std::string::find and rfind, istream token
extraction, std::getline) are embedded as executable functions faithful to
their prefix-parsing semantics. Network reads are modelled by passing the
sequence of byte blocks that successive recv calls deliver; an exhausted
sequence stands for EOF or a socket error.
-/

abbrev Str := List Char

/-- C isspace in the C locale: space, tab, newline, vertical tab, form feed,
carriage return. -/
def cspace (c : Char) : Bool :=
  c = ' ' || c = '\t' || c = '\n' || c = '\x0b' || c = '\x0c' || c = '\r'

/-- C isdigit. -/
def cdigit (c : Char) : Bool := '0' ≤ c && c ≤ '9'

/-- C isxdigit. -/
def chexdigit (c : Char) : Bool :=
  cdigit c || ('a' ≤ c && c ≤ 'f') || ('A' ≤ c && c ≤ 'F')

/-- C tolower on ASCII (identity outside the uppercase range, as in the C
locale). -/
def clower (c : Char) : Char :=
  if 'A' ≤ c && c ≤ 'Z' then Char.ofNat (c.toNat + 32) else c

/-- to_lower (domainsd.cpp:94-99). -/
def to_lower (s : Str) : Str := s.map clower

/-- trim (domainsd.cpp:82-92): strip isspace characters from both ends. -/
def trim (s : Str) : Str :=
  ((s.dropWhile cspace).reverse.dropWhile cspace).reverse

/-- Occurrence test at the head position, used to implement
std::string::find. -/
def matchesHere (pat l : Str) : Bool := decide (l.take pat.length = pat)

/-- Position of the first occurrence of pat in l, if any. -/
def findSub (pat : Str) : Str → Option Nat
  | [] => if pat = [] then some 0 else none
  | x :: rest =>
    if matchesHere pat (x :: rest) then some 0
    else (findSub pat rest).map (· + 1)

/-- std::string::find(pat, start). -/
def findFrom (pat l : Str) (start : Nat) : Option Nat :=
  (findSub pat (l.drop start)).map (· + start)

/-- std::string::find(pat) ≠ npos, the substring-containment idiom. -/
def containsSub (pat l : Str) : Bool := (findSub pat l).isSome

/-- std::string::rfind(c): position of the last occurrence of a character. -/
def rfindChar (c : Char) : Str → Option Nat
  | [] => none
  | x :: rest =>
    match rfindChar c rest with
    | some p => some (p + 1)
    | none => if x = c then some 0 else none

/-- std::string::find(c): position of the first occurrence of a character. -/
def findChar (c : Char) : Str → Option Nat
  | [] => none
  | x :: rest => if x = c then some 0 else (findChar c rest).map (· + 1)

/-- substr-style slice [a, b). -/
def extract (l : Str) (a b : Nat) : Str := (l.drop a).take (b - a)

/-- Numeric value of a digit character, covering both cases of hex. -/
def hexVal (c : Char) : Nat :=
  if cdigit c then c.toNat - '0'.toNat
  else if 'a' ≤ c && c ≤ 'f' then c.toNat - 'a'.toNat + 10
  else c.toNat - 'A'.toNat + 10

/-- Value of a digit run in the given base. -/
def digitsVal (base : Nat) (ds : Str) : Nat :=
  ds.foldl (fun acc c => acc * base + hexVal c) 0

/-- ULLONG_MAX on the LP64 targets the daemon builds for. -/
def ullMax : Nat := 2 ^ 64 - 1

/-- Digit-run step shared by the strtoul family: at least one digit is
required, the value must fit 64 bits (out_of_range otherwise), and a leading
minus wraps the value modulo 2^64. -/
def strtoDigits (base : Nat) (digitp : Char → Bool) (neg : Bool) (rest : Str) : Option Nat :=
  let ds := rest.takeWhile digitp
  if ds = [] then none
  else if ullMax < digitsVal base ds then none
  else some (if neg then (ullMax + 1 - digitsVal base ds) % (ullMax + 1) else digitsVal base ds)

/-- std::stoul / std::stoull at base 10: skip C whitespace, optional sign, at
least one decimal digit; trailing junk is ignored. -/
def cpp_stoul (s : Str) : Option Nat :=
  match s.dropWhile cspace with
  | '-' :: r => strtoDigits 10 cdigit true r
  | '+' :: r => strtoDigits 10 cdigit false r
  | r => strtoDigits 10 cdigit false r

/-- Core of std::stoull at base 16: an optional 0x/0X marker is consumed only
when a hex digit follows it (otherwise strtoull consumes just the single 0). -/
def cpp_stoull16core (neg : Bool) : Str → Option Nat
  | '0' :: 'x' :: c :: r =>
    if chexdigit c then strtoDigits 16 chexdigit neg (c :: r)
    else strtoDigits 16 chexdigit neg ('0' :: 'x' :: c :: r)
  | '0' :: 'X' :: c :: r =>
    if chexdigit c then strtoDigits 16 chexdigit neg (c :: r)
    else strtoDigits 16 chexdigit neg ('0' :: 'X' :: c :: r)
  | r => strtoDigits 16 chexdigit neg r

/-- std::stoull at base 16 (chunk-size lines). -/
def cpp_stoull16 (s : Str) : Option Nat :=
  match s.dropWhile cspace with
  | '-' :: r => cpp_stoull16core true r
  | '+' :: r => cpp_stoull16core false r
  | r => cpp_stoull16core false r

def intMax : Int := 2 ^ 31 - 1
def intMin : Int := -(2 ^ 31)

/-- Digit-run step of std::stoi: at least one digit, value must fit int. -/
def cpp_stoi_core (neg : Bool) (rest : Str) : Option Int :=
  let ds := rest.takeWhile cdigit
  if ds = [] then none
  else
    let sv : Int := if neg then -(Int.ofNat (digitsVal 10 ds)) else Int.ofNat (digitsVal 10 ds)
    if sv < intMin ∨ intMax < sv then none else some sv

/-- std::stoi: skip C whitespace, optional sign, decimal digit run; trailing
junk is ignored; out-of-range throws (none). -/
def cpp_stoi (s : Str) : Option Int :=
  match s.dropWhile cspace with
  | '-' :: r => cpp_stoi_core true r
  | '+' :: r => cpp_stoi_core false r
  | r => cpp_stoi_core false r

/-- istream >> std::string: skip whitespace, then the maximal non-space run;
fails at end of input. -/
def readToken (s : Str) : Option (Str × Str) :=
  match s.dropWhile cspace with
  | [] => none
  | r => some (r.takeWhile (fun c => !cspace c), r.dropWhile (fun c => !cspace c))

/-- istream >> int: skip whitespace, optional sign, decimal digit run; no
digits or overflow sets failbit (none). -/
def readInt (s : Str) : Option (Int × Str) :=
  match s.dropWhile cspace with
  | '-' :: r => (cpp_stoi_core true r).map (fun v => (v, r.dropWhile cdigit))
  | '+' :: r => (cpp_stoi_core false r).map (fun v => (v, r.dropWhile cdigit))
  | r => (cpp_stoi_core false r).map (fun v => (v, r.dropWhile cdigit))

/-- Accumulator loop of std::getline splitting. -/
def getlinesAux : Str → Str → List Str
  | [], acc => if acc = [] then [] else [acc.reverse]
  | '\n' :: rest, acc => acc.reverse :: getlinesAux rest []
  | c :: rest, acc => getlinesAux rest (c :: acc)

/-- Repeated std::getline over a whole string: one line per newline, plus a
final unterminated line when the text does not end in a newline. -/
def getlines (s : Str) : List Str := getlinesAux s []

/-- pop_back of a trailing CR, as done after every getline in the source. -/
def chompCR (l : Str) : Str :=
  if l ≠ [] ∧ l.getLast? = some '\r' then l.dropLast else l

/-! String constants of the source. -/

def sCRLF : Str := "\r\n".toList
def sCRLF2 : Str := "\r\n\r\n".toList
def sChunked : Str := "chunked".toList
def sClose : Str := "close".toList
def sKeepAlive : Str := "keep-alive".toList
def sHttp11 : Str := "http/1.1".toList
def sHttp10 : Str := "http/1.0".toList
def sHTTP11 : Str := "HTTP/1.1".toList
def sHTTP10 : Str := "HTTP/1.0".toList
def sHead : Str := "head".toList
def sTransferEncoding : Str := "transfer-encoding".toList
def sContentLength : Str := "content-length".toList
def sConnection : Str := "connection".toList
def healthPath : Str := "/_flow/domains/health".toList
def errInvalidContentLength : Str := "invalid content-length".toList
def errInvalidRequestLine : Str := "invalid request line".toList
def errClientClosedBeforeRequest : Str := "client closed before request".toList
def errClientClosedConnection : Str := "client closed connection".toList
def errClientClosedBeforeBody : Str := "client closed before full request body".toList
def sClientClosed : Str := "client closed".toList
def sBadRequestReason : Str := "Bad Request".toList
def sNL : Str := "\n".toList

/-! ## Claim C1: body-framing selection in read_request -/

inductive BodyFrame where
  | chunked
  | contentLength (n : Nat)
  deriving DecidableEq, Repr

deriving instance DecidableEq for Except

/-- Whether the Transfer-Encoding header value selects chunked framing
(domainsd.cpp:387-391): lowercase the value and look for the substring
chunked. -/
def te_is_chunked (transferEncoding : Option Str) : Bool :=
  match transferEncoding with
  | some v => containsSub sChunked (to_lower v)
  | none => false

/-- Body-framing selection of read_request (domainsd.cpp:376-392), over the
case-folded header-map entries for content-length and transfer-encoding.
The source validates Content-Length through std::stoul first (error
"invalid content-length" on failure), and only afterwards consults
Transfer-Encoding; chunked wins over any successfully parsed length. -/
def read_request_framing (contentLength transferEncoding : Option Str) : Except Str BodyFrame :=
  match contentLength with
  | some v =>
    match cpp_stoul v with
    | none => Except.error errInvalidContentLength
    | some n =>
      if te_is_chunked transferEncoding then Except.ok BodyFrame.chunked
      else Except.ok (BodyFrame.contentLength n)
  | none =>
    if te_is_chunked transferEncoding then Except.ok BodyFrame.chunked
    else Except.ok (BodyFrame.contentLength 0)

def sAbc : Str := "abc".toList
def s7 : Str := "7".toList
def sChunkedMixed : Str := "Chunked".toList

/-! ## Claim C3: client keep-alive derivation -/

/-- request_wants_keepalive (domainsd.cpp:187-204), over the request version
string and the case-folded Connection header value (none when the header is
absent). -/
def request_wants_keepalive (version : Str) (connection : Option Str) : Bool :=
  let connection_close := match connection with
    | some v => containsSub sClose (to_lower v)
    | none => false
  let connection_keepalive := match connection with
    | some v => containsSub sKeepAlive (to_lower v)
    | none => false
  if to_lower version = sHttp11 then !connection_close
  else if to_lower version = sHttp10 then connection_keepalive
  else false

/-- Modelled from the claim's words (claim C3), for comparison with
request_wants_keepalive: the version is compared literally against HTTP/1.1
and HTTP/1.0 and the Connection value is searched for the literal substrings,
with every other version string mapping to false. -/
def claim_keepalive (version : Str) (connection : Option Str) : Bool :=
  let has := fun (pat : Str) => match connection with
    | some v => containsSub pat v
    | none => false
  if version = sHTTP11 then !(has sClose)
  else if version = sHTTP10 then has sKeepAlive
  else false

def sCloseUpper : Str := "CLOSE".toList

/-! ## Claim C4: pool liveness probe -/

inductive PeekErrno where
  | eagain
  | ewouldblock
  | eintr
  | other
  deriving DecidableEq, Repr

/-- Result of one non-blocking one-byte MSG_PEEK recv call. -/
inductive PeekResult where
  | eofZero
  | dataReady
  | failed (e : PeekErrno)
  deriving DecidableEq, Repr

/-- socket_is_idle_usable (domainsd.cpp:617-634) over the sequence of results
successive recv calls return (EINTR retries consume the next result): 0 bytes
means EOF (not usable); EAGAIN / EWOULDBLOCK means nothing pending (usable);
a positive count means pending readable bytes (not usable); any other error
is not usable. -/
def socket_is_idle_usable : List PeekResult → Bool
  | [] => false
  | PeekResult.eofZero :: _ => false
  | PeekResult.dataReady :: _ => false
  | PeekResult.failed PeekErrno.eagain :: _ => true
  | PeekResult.failed PeekErrno.ewouldblock :: _ => true
  | PeekResult.failed PeekErrno.eintr :: rest => socket_is_idle_usable rest
  | PeekResult.failed PeekErrno.other :: _ => false

/-! ## Claim C5: route-target parsing and the 502 path -/

/-- parse_host_port (domainsd.cpp:109-121): split at the last colon, which
may be neither first nor last character, parse the suffix with std::stoi and
require the value to lie in [1, 65535]. -/
def parse_host_port (target : Str) : Option (Str × Int) :=
  match rfindChar ':' target with
  | none => none
  | some pos =>
    if pos = 0 ∨ target.length ≤ pos + 1 then none
    else
      match cpp_stoi (target.drop (pos + 1)) with
      | none => none
      | some port =>
        if 1 ≤ port ∧ port ≤ 65535 then some (target.take pos, port) else none

/-- Modelled from the claim's words (claim C5), for comparison with
parse_host_port: the target must be host:port where the portion after the
last colon is a well-formed decimal number (digits only) whose value lies in
[1, 65535]. -/
def claim_host_port_form (target : Str) : Bool :=
  match rfindChar ':' target with
  | none => false
  | some pos =>
    let portStr := target.drop (pos + 1)
    !(target.take pos).isEmpty && !portStr.isEmpty && portStr.all cdigit &&
      decide (1 ≤ digitsVal 10 portStr) && decide (digitsVal 10 portStr ≤ 65535)

def sPort80x : Str := "h:80x".toList
def sH : Str := "h".toList

/-! ## Claims C5 / C10: the per-iteration dispatch of handle_client -/

/-- The request fields handle_client's dispatch consults. -/
structure ReqView where
  method : Str
  path : Str
  version : Str
  normalized_host : Str
  client_wants_keepalive : Bool
  deriving DecidableEq, Repr

inductive HandlerStep where
  | healthOk (keepalive : Bool)
  | badRequestMissingHost
  | notFound (host : Str)
  | badGatewayInvalidTarget
  | forward (host : Str) (port : Int)
  deriving DecidableEq, Repr

/-- The routing dispatch of one handle_client iteration after a successful
request parse (domainsd.cpp:1125-1193): health intercept first, then Host
presence, then route lookup, then target parsing; parse failure produces the
502 Bad Gateway reply and ends the handler. -/
def handle_client_dispatch (req : ReqView) (lookup : Str → Option Str) : HandlerStep :=
  if req.path = healthPath then HandlerStep.healthOk req.client_wants_keepalive
  else if req.normalized_host = [] then HandlerStep.badRequestMissingHost
  else
    match lookup req.normalized_host with
    | none => HandlerStep.notFound req.normalized_host
    | some target =>
      match parse_host_port target with
      | none => HandlerStep.badGatewayInvalidTarget
      | some (h, p) => HandlerStep.forward h p

def sHealth200Head : Str := "HTTP/1.1 200 OK\r\n".toList

/-- The inline health response (domainsd.cpp:1139-1146): fixed 200 OK status
line and proxy headers, Connection per the client's keep-alive preference,
then the counters body. -/
def health_response (body : Str) (keepalive : Bool) : Str :=
  sHealth200Head ++
  ("X-Flow-Domainsd: 1\r\n").toList ++
  ("Content-Type: text/plain; charset=utf-8\r\n").toList ++
  ("Content-Length: ").toList ++ Nat.toDigits 10 body.length ++ sCRLF ++
  ("Connection: ").toList ++ (if keepalive then sKeepAlive else sClose) ++ sCRLF2 ++
  body

def reqHealthNoHost : ReqView :=
  { method := "POST".toList
  , path := healthPath
  , version := sHTTP11
  , normalized_host := []
  , client_wants_keepalive := true }

def reqPlain : ReqView :=
  { method := "GET".toList
  , path := "/p".toList
  , version := sHTTP11
  , normalized_host := "x".toList
  , client_wants_keepalive := true }

def sColon80 : Str := ":80".toList

def lookupColon80 : Str → Option Str := fun h =>
  if h = reqPlain.normalized_host then some sColon80 else none

/-! ## Claim C6: upstream response-head parsing -/

structure ResponseMeta where
  status_code : Int
  chunked : Bool
  connection_close : Bool
  no_body : Bool
  content_length : Option Nat
  deriving DecidableEq, Repr

/-- Status-line slice of parse_response_headers (domainsd.cpp:851-857):
istringstream extraction of a version token followed by an int. -/
def parseStatusCode (line : Str) : Option Int :=
  match readToken line with
  | none => none
  | some (_, rest) =>
    match readInt rest with
    | none => none
    | some (code, _) => some code

/-- Header loop of parse_response_headers (domainsd.cpp:859-883): stop at the
empty line, ignore colon-free lines, lowercase both trimmed sides, record
chunked / content-length / connection-close; a content-length value
std::stoull rejects fails the whole parse. -/
def respHeaderFold : List Str → Bool → Option Nat → Bool → Option (Bool × Option Nat × Bool)
  | [], ch, cl, cc => some (ch, cl, cc)
  | line :: rest, ch, cl, cc =>
    let l := chompCR line
    if l = [] then some (ch, cl, cc)
    else
      match findChar ':' l with
      | none => respHeaderFold rest ch cl cc
      | some pos =>
        let key := to_lower (trim (l.take pos))
        let val := to_lower (trim (l.drop (pos + 1)))
        if key = sTransferEncoding ∧ containsSub sChunked val then
          respHeaderFold rest true cl cc
        else if key = sContentLength then
          match cpp_stoul val with
          | none => none
          | some n => respHeaderFold rest ch (some n) cc
        else if key = sConnection ∧ containsSub sClose val then
          respHeaderFold rest ch cl true
        else respHeaderFold rest ch cl cc

/-- The no_body expression of parse_response_headers (domainsd.cpp:885-887):
HEAD request method (case-insensitive), informational 1xx other than 101,
204, or 304. -/
def no_body_flag (method : Str) (code : Int) : Bool :=
  decide (to_lower method = sHead) ||
  (decide (100 ≤ code) && decide (code < 200) && decide (code ≠ 101)) ||
  decide (code = 204) || decide (code = 304)

/-- parse_response_headers (domainsd.cpp:842-893). When no_body holds the
source forces chunked to false and content_length to 0. -/
def parse_response_headers (raw method : Str) : Option ResponseMeta :=
  match getlines raw with
  | [] => none
  | first :: rest =>
    match parseStatusCode (chompCR first) with
    | none => none
    | some code =>
      match respHeaderFold rest false none false with
      | none => none
      | some (ch, cl, cc) =>
        some { status_code := code
             , chunked := if no_body_flag method code then false else ch
             , connection_close := cc
             , no_body := no_body_flag method code
             , content_length := if no_body_flag method code then some 0 else cl }

inductive RespFrame where
  | noBody
  | chunked
  | contentLength (n : Nat)
  | untilClose
  deriving DecidableEq, Repr

/-- Body-framing precedence of relay_response_and_decide_reuse
(domainsd.cpp:1041-1072): no_body first, then chunked, then a declared
content length, else read-until-close. -/
def response_framing (m : ResponseMeta) : RespFrame :=
  if m.no_body then RespFrame.noBody
  else if m.chunked then RespFrame.chunked
  else
    match m.content_length with
    | some n => RespFrame.contentLength n
    | none => RespFrame.untilClose

def rawResp204 : Str :=
  "HTTP/1.1 204 No Content\r\nTransfer-Encoding: chunked\r\nContent-Length: 5\r\n\r\n".toList

def methodGET : Str := "GET".toList

def metaResp204 : ResponseMeta :=
  { status_code := 204
  , chunked := false
  , connection_close := false
  , no_body := true
  , content_length := some 0 }

/-! ## Claim C7: request-line parsing -/

/-- Request-line slice of read_request (domainsd.cpp:347-353): istringstream
extraction of three whitespace-delimited tokens; failure is the error
"invalid request line". -/
def parse_request_line (line : Str) : Except Str (Str × Str × Str) :=
  match readToken line with
  | none => Except.error errInvalidRequestLine
  | some (m, r1) =>
    match readToken r1 with
    | none => Except.error errInvalidRequestLine
    | some (p, r2) =>
      match readToken r2 with
      | none => Except.error errInvalidRequestLine
      | some (v, _) => Except.ok (m, p, v)

/-- Accumulator loop splitting a line into maximal non-whitespace runs. -/
def tokenAux : Str → Str → List Str
  | [], acc => if acc = [] then [] else [acc.reverse]
  | c :: rest, acc =>
    if cspace c then
      (if acc = [] then tokenAux rest [] else acc.reverse :: tokenAux rest [])
    else tokenAux rest (c :: acc)

/-- Whitespace-separated tokens of a line. -/
def wsTokens (l : Str) : List Str := tokenAux l []

/-- Accumulator loop splitting a line at every single space character. -/
def splitOnSpaceAux : Str → Str → List Str
  | [], acc => [acc.reverse]
  | c :: rest, acc =>
    if c = ' ' then acc.reverse :: splitOnSpaceAux rest []
    else splitOnSpaceAux rest (c :: acc)

def splitOnSpace (l : Str) : List Str := splitOnSpaceAux l []

/-- Modelled from the claim's words (claim C7), for comparison with
parse_request_line: the line must be exactly METHOD SP PATH SP VERSION,
three nonempty single-space-separated tokens with nothing extra. -/
def claim_request_line_form (line : Str) : Bool :=
  match splitOnSpace line with
  | [m, p, v] => !m.isEmpty && !p.isEmpty && !v.isEmpty
  | _ => false

def sReqLineExtra : Str := "GET / HTTP/1.1 extra".toList
def sGET : Str := "GET".toList
def sSlash : Str := "/".toList

/-! ## Claim C8: parse-error classification in handle_client -/

/-- send_simple_response (domainsd.cpp:142-151): the full byte string written
for a directly produced response. -/
def send_simple_response (status : Nat) (reason body : Str) : Str :=
  ("HTTP/1.1 ").toList ++ Nat.toDigits 10 status ++ (" ").toList ++ reason ++ sCRLF ++
  ("X-Flow-Domainsd: 1\r\n").toList ++
  ("Content-Type: text/plain; charset=utf-8\r\n").toList ++
  ("Content-Length: ").toList ++ Nat.toDigits 10 body.length ++ sCRLF ++
  ("Connection: close\r\n\r\n").toList ++ body

/-- Parse-error classification of handle_client (domainsd.cpp:1117-1122):
reply 400 Bad Request carrying the error text and a newline unless the error
is empty or is one of the two exact client-disconnect strings, which end the
session silently (none). -/
def handle_parse_error (err : Str) : Option Str :=
  if err ≠ [] ∧ err ≠ errClientClosedBeforeRequest ∧ err ≠ errClientClosedConnection then
    some (send_simple_response 400 sBadRequestReason (err ++ sNL))
  else none

def sRecvFailed : Str := "recv failed: Connection reset by peer".toList

/-! ## Claim C2: the upstream pool

The pool is modelled as an association list from keys to idle-connection
lists plus the idle_total counter. Closed descriptors are recorded in a ghost
list so that "close instead of park" is statable. The liveness probe's
outcome depends on the remote socket state, so each operation carries a probe
oracle (descriptor → usable) and a timestamp, matching the information
socket_is_idle_usable and steady_clock::now provide at that call. -/

structure PooledConn where
  fd : Int
  created_at : Nat
  last_used_at : Nat
  deriving DecidableEq, Repr

structure PoolCfg where
  maxIdlePerKey : Nat
  maxIdleTotal : Nat
  idleTimeoutMs : Nat
  maxAgeMs : Nat
  deriving DecidableEq, Repr

/-- is_conn_fresh (domainsd.cpp:714-722). -/
def is_conn_fresh (cfg : PoolCfg) (now : Nat) (c : PooledConn) : Bool :=
  !decide (cfg.idleTimeoutMs < now - c.last_used_at) &&
  !decide (cfg.maxAgeMs < now - c.created_at)

/-- The combined check applied to a pooled entry before keeping or handing it
out: freshness and the liveness probe. -/
def conn_usable (cfg : PoolCfg) (now : Nat) (probe : Int → Bool) (c : PooledConn) : Bool :=
  is_conn_fresh cfg now c && probe c.fd

structure PoolState where
  byKey : List (Str × List PooledConn)
  idleTotal : Nat
  closed : List Int
  deriving DecidableEq, Repr

/-- One key's pass of reap_locked (domainsd.cpp:724-746): keep usable entries
in order, close the rest. -/
def reapConns (cfg : PoolCfg) (now : Nat) (probe : Int → Bool) : List PooledConn → List PooledConn × List Int
  | [] => ([], [])
  | c :: rest =>
    let r := reapConns cfg now probe rest
    if conn_usable cfg now probe c then (c :: r.1, r.2) else (r.1, c.fd :: r.2)

/-- reap_locked over the whole map: empty keys are erased, idle_total is
decremented once per evicted entry (saturating, as in the source). -/
def reapAll (cfg : PoolCfg) (now : Nat) (probe : Int → Bool) : List (Str × List PooledConn) → List (Str × List PooledConn) × Nat × List Int
  | [] => ([], 0, [])
  | e :: rest =>
    let rc := reapConns cfg now probe e.2
    let r := reapAll cfg now probe rest
    (if rc.1.isEmpty then r.1 else (e.1, rc.1) :: r.1, rc.2.length + r.2.1, rc.2 ++ r.2.2)

def reap_locked (cfg : PoolCfg) (now : Nat) (probe : Int → Bool) (st : PoolState) : PoolState :=
  let r := reapAll cfg now probe st.byKey
  { byKey := r.1, idleTotal := st.idleTotal - r.2.1, closed := st.closed ++ r.2.2 }

/-- unordered_map::find on the association list. -/
def lookupKey (k : Str) : List (Str × List PooledConn) → Option (List PooledConn)
  | [] => none
  | e :: rest => if e.1 = k then some e.2 else lookupKey k rest

/-- Store a key's list, inserting the key at the end when absent (the
operator[] insertion). -/
def setKey (k : Str) (v : List PooledConn) : List (Str × List PooledConn) → List (Str × List PooledConn)
  | [] => [(k, v)]
  | e :: rest => if e.1 = k then (k, v) :: rest else e :: setKey k v rest

/-- operator[] read: the key's list, empty when absent. -/
def byKeyEntry (k : Str) (bk : List (Str × List PooledConn)) : List PooledConn :=
  (lookupKey k bk).getD []

/-- The pop_back loop of UpstreamPool::acquire (domainsd.cpp:661-673) over
the key's entries in pop order (newest first): each popped entry decrements
idle_total (saturating); a stale or probe-failing entry is closed and the
loop continues; a usable entry's descriptor is returned. Yields the result,
the surviving entries still in pop order, the new idle_total, and the closed
descriptors. -/
def acquireLoopRev (cfg : PoolCfg) (now : Nat) (probe : Int → Bool) : List PooledConn → Nat → Option Int × List PooledConn × Nat × List Int
  | [], it => (none, [], it, [])
  | c :: rest, it =>
    if conn_usable cfg now probe c then (some c.fd, rest, it - 1, [])
    else
      let r := acquireLoopRev cfg now probe rest (it - 1)
      (r.1, r.2.1, r.2.2.1, c.fd :: r.2.2.2)

/-- UpstreamPool::acquire (domainsd.cpp:655-676): reap, then pop from the
tail of the key's list until a fresh and probe-passing entry is found. A none
result stands for the fall-through to connect_upstream. -/
def pool_acquire (cfg : PoolCfg) (now : Nat) (probe : Int → Bool) (key : Str) (st : PoolState) : PoolState × Option Int :=
  let st1 := reap_locked cfg now probe st
  match lookupKey key st1.byKey with
  | none => (st1, none)
  | some conns =>
    let r := acquireLoopRev cfg now probe conns.reverse st1.idleTotal
    ({ byKey := setKey key r.2.1.reverse st1.byKey
     , idleTotal := r.2.2.1
     , closed := st1.closed ++ r.2.2.2 }, r.1)

/-- UpstreamPool::release (domainsd.cpp:678-705): invalid descriptors are
ignored; a probe failure closes; after reaping, reaching the global idle cap
closes, reaching the per-key cap closes (the operator[] call having
materialized the key); otherwise the socket is parked with created_at and
last_used_at set to now and idle_total incremented. -/
def pool_release (cfg : PoolCfg) (now : Nat) (probe : Int → Bool) (key : Str) (fd : Int) (st : PoolState) : PoolState :=
  if fd < 0 then st
  else if probe fd = false then { st with closed := st.closed ++ [fd] }
  else
    let st1 := reap_locked cfg now probe st
    if cfg.maxIdleTotal ≤ st1.idleTotal then { st1 with closed := st1.closed ++ [fd] }
    else
      let conns := byKeyEntry key st1.byKey
      if cfg.maxIdlePerKey ≤ conns.length then
        { byKey := setKey key conns st1.byKey
        , idleTotal := st1.idleTotal
        , closed := st1.closed ++ [fd] }
      else
        { byKey := setKey key (conns ++ [{ fd := fd, created_at := now, last_used_at := now }]) st1.byKey
        , idleTotal := st1.idleTotal + 1
        , closed := st1.closed }

def pool_empty : PoolState := { byKey := [], idleTotal := 0, closed := [] }

/-- One pool call: acquire or release, with the timestamp and probe oracle
observed during that call. -/
inductive PoolOp where
  | acq (key : Str) (now : Nat) (probe : Int → Bool)
  | rel (key : Str) (fd : Int) (now : Nat) (probe : Int → Bool)

def pool_step (cfg : PoolCfg) (st : PoolState) : PoolOp → PoolState
  | PoolOp.acq k now p => (pool_acquire cfg now p k st).1
  | PoolOp.rel k fd now p => pool_release cfg now p k fd st

def pool_run (cfg : PoolCfg) (ops : List PoolOp) : PoolState :=
  ops.foldl (pool_step cfg) pool_empty

/-- The capacity invariant of claim C2: idle_total never exceeds the global
cap and no per-key list exceeds the per-key cap. -/
def PoolInv (cfg : PoolCfg) (st : PoolState) : Prop :=
  st.idleTotal ≤ cfg.maxIdleTotal ∧ ∀ e ∈ st.byKey, e.2.length ≤ cfg.maxIdlePerKey

def cfgSmall : PoolCfg :=
  { maxIdlePerKey := 1, maxIdleTotal := 2, idleTimeoutMs := 100, maxAgeMs := 1000 }

def sK : Str := "k".toList

def probeAll : Int → Bool := fun _ => true

def opsSmall : List PoolOp :=
  [ PoolOp.rel sK 3 0 probeAll
  , PoolOp.rel sK 4 1 probeAll
  , PoolOp.acq sK 2 probeAll
  , PoolOp.rel sK 5 3 probeAll ]

/-! ## Claim C9: chunked response relay

relay_chunked_body (domainsd.cpp:951-1005) interleaves parsing with recv
calls that only ever append to the buffer; since the first occurrence of a
pattern at or after the cursor is unchanged by appending, each loop
iteration is modelled by re-running the deterministic parse of the current
buffer from the current cursor. The fuel argument dominates the loop's
decreasing measure (one unit per iteration, each of which either consumes a
recv block or advances the cursor), so every terminating execution of the
source loop is reached below the fuel bound used by relay_chunked_body;
exhausted fuel is reported as failure, which only ever understates
completion. send_all to the client is not modelled: a failed send produces
one more incomplete outcome, never a complete one. -/

/-- Chunk-size token: the line up to an optional extension semicolon. -/
def chunk_size_token (line : Str) : Str := line.takeWhile (fun c => c ≠ ';')

/-- Trailer phase of relay_chunked_body (domainsd.cpp:988-1001): find the
next CRLFCRLF at or after the cursor, reading more when absent; on success
return the final buffer and the end offset (terminator position + 4) used by
the `end == buf.size()` completion test. -/
def relay_trailer_loop : Nat → Str → Nat → List Str → Option (Str × Nat)
  | 0, _, _, _ => none
  | _ + 1, buf, cursor, [] =>
    match findFrom sCRLF2 buf cursor with
    | some p => some (buf, p + 4)
    | none => none
  | f + 1, buf, cursor, c :: rest =>
    match findFrom sCRLF2 buf cursor with
    | some p => some (buf, p + 4)
    | none => relay_trailer_loop f (buf ++ c) cursor rest

/-- Chunk loop of relay_chunked_body (domainsd.cpp:953-1005): find the size
line, parse the hex size, ensure the chunk plus terminator is buffered,
check the terminator, advance; a zero-size chunk enters the trailer phase. -/
def relay_chunked_loop : Nat → Str → Nat → List Str → Option (Str × Nat)
  | 0, _, _, _ => none
  | f + 1, buf, cursor, inc =>
    match findFrom sCRLF buf cursor with
    | none =>
      match inc with
      | [] => none
      | c :: rest => relay_chunked_loop f (buf ++ c) cursor rest
    | some line_end =>
      match cpp_stoull16 (chunk_size_token (trim (extract buf cursor line_end))) with
      | none => none
      | some chunk_size =>
        if buf.length < line_end + 2 + chunk_size + 2 then
          match inc with
          | [] => none
          | c :: rest => relay_chunked_loop f (buf ++ c) cursor rest
        else if extract buf (line_end + 2 + chunk_size) (line_end + 2 + chunk_size + 2) = sCRLF then
          if chunk_size = 0 then relay_trailer_loop f buf (line_end + 2 + 2) inc
          else relay_chunked_loop f buf (line_end + 2 + chunk_size + 2) inc
        else none

/-- Fuel bound dominating the loop measure. -/
def relay_fuel (initial : Str) (inc : List Str) : Nat :=
  (inc.map List.length).sum + inc.length + initial.length + 1

/-- relay_chunked_body's completion result: true exactly when the loop
reaches the trailer return site with `end == buf.size()`. -/
def relay_chunked_body (initial : Str) (inc : List Str) : Bool :=
  match relay_chunked_loop (relay_fuel initial inc) initial 0 inc with
  | some (fb, e) => decide (e = fb.length)
  | none => false

structure RelayOutcome where
  upstream_reusable : Bool
  client_can_keepalive : Bool
  deriving DecidableEq, Repr

/-- The chunked branch of relay_response_and_decide_reuse
(domainsd.cpp:1054-1061): both reuse flags equal complete ∧ ¬connection_close. -/
def chunked_relay_outcome (complete connection_close : Bool) : RelayOutcome :=
  { upstream_reusable := complete && !connection_close
  , client_can_keepalive := complete && !connection_close }

/-- handle_client's post-relay upstream decision (domainsd.cpp:1243-1252):
the socket is kept (cached) only when reusable, otherwise discarded. -/
def upstream_kept (o : RelayOutcome) : Bool := o.upstream_reusable

/-- handle_client's loop-continuation decision (domainsd.cpp:1254-1256). -/
def client_loop_continues (o : RelayOutcome) (client_wants_keepalive : Bool) : Bool :=
  client_wants_keepalive && o.client_can_keepalive

def bufChunkExact : Str := "0\r\n\r\n\r\n\r\n".toList
def bufChunkExtra : Str := "0\r\n\r\n\r\n\r\nX".toList

/-! # Theorems -/

/-! ## Shared helper lemmas -/

theorem findSub_spec (pat : Str) :
    ∀ (l : Str) (p : Nat), findSub pat l = some p →
      (l.drop p).take pat.length = pat ∧ p + pat.length ≤ l.length := by
  intro l
  induction l with
  | nil =>
    intro p h
    simp only [findSub] at h
    split at h
    · next hpat =>
      cases h
      subst hpat
      simp
    · cases h
  | cons x rest ih =>
    intro p h
    simp only [findSub] at h
    split at h
    · next hm =>
      cases h
      have hm' := of_decide_eq_true hm
      refine ⟨by simpa using hm', ?_⟩
      have hlen := congrArg List.length hm'
      rw [List.length_take] at hlen
      have hle := min_eq_left_iff.mp hlen
      omega
    · next hm =>
      rw [Option.map_eq_some'] at h
      obtain ⟨q, hq, rfl⟩ := h
      obtain ⟨h1, h2⟩ := ih q hq
      refine ⟨by simpa using h1, ?_⟩
      simp only [List.length_cons]
      omega

theorem findFrom_spec (pat l : Str) (start p : Nat) (hne : pat ≠ [])
    (h : findFrom pat l start = some p) :
    start ≤ p ∧ (l.drop p).take pat.length = pat ∧ p + pat.length ≤ l.length := by
  unfold findFrom at h
  rw [Option.map_eq_some'] at h
  obtain ⟨q, hq, rfl⟩ := h
  obtain ⟨h1, h2⟩ := findSub_spec pat (l.drop start) q hq
  have hplen : 0 < pat.length := List.length_pos.mpr hne
  have hdl : (l.drop start).length = l.length - start := List.length_drop start l
  constructor
  · omega
  constructor
  · rw [List.drop_drop, Nat.add_comm start q] at h1
    exact h1
  · omega

/-! ## Claim C4 -/

/-- Claim C4: the pool's liveness probe performs a non-blocking one-byte
peek and classifies the socket as not usable on a zero-byte (EOF) result,
usable on EAGAIN or EWOULDBLOCK, not usable when readable bytes are pending,
and not usable on any other error. -/
theorem socket_is_idle_usable_classification (rest : List PeekResult) :
    socket_is_idle_usable (PeekResult.eofZero :: rest) = false ∧
    socket_is_idle_usable (PeekResult.failed PeekErrno.eagain :: rest) = true ∧
    socket_is_idle_usable (PeekResult.failed PeekErrno.ewouldblock :: rest) = true ∧
    socket_is_idle_usable (PeekResult.dataReady :: rest) = false ∧
    socket_is_idle_usable (PeekResult.failed PeekErrno.other :: rest) = false :=
  ⟨rfl, rfl, rfl, rfl, rfl⟩

/-! ## Claim C3 -/

/-- Claim C3 counterexample: the source lowercases the version before
comparing, so the request version written in lowercase as http/1.1 with no
Connection header derives keep-alive true, while the claim's reading (any
version string other than HTTP/1.1 and HTTP/1.0 defaults to false) makes it
false. -/
theorem request_wants_keepalive_cex :
    request_wants_keepalive sHttp11 none = true ∧ claim_keepalive sHttp11 none = false := by
  constructor <;> decide

/-- Claim C3 (amended): keep-alive derivation with the version compared
case-insensitively (lowercased against http/1.1 and http/1.0) and the
Connection value searched case-insensitively for close and keep-alive:
HTTP/1.1 (any case) is keep-alive unless the Connection value contains
close; HTTP/1.0 (any case) requires the Connection value to contain
keep-alive; every other version yields false. -/
theorem request_wants_keepalive_amended (version : Str) (connection : Option Str) :
    (to_lower version = sHttp11 →
      request_wants_keepalive version connection =
        !(match connection with
          | some v => containsSub sClose (to_lower v)
          | none => false)) ∧
    (to_lower version = sHttp10 →
      request_wants_keepalive version connection =
        (match connection with
         | some v => containsSub sKeepAlive (to_lower v)
         | none => false)) ∧
    (to_lower version ≠ sHttp11 → to_lower version ≠ sHttp10 →
      request_wants_keepalive version connection = false) := by
  unfold request_wants_keepalive
  refine ⟨fun h => ?_, fun h => ?_, fun h1 h2 => ?_⟩
  · rw [if_pos h]
  · rw [if_neg (by rw [h]; decide), if_pos h]
  · rw [if_neg h1, if_neg h2]

/-- Claim C3 witness: an uppercase HTTP/1.1 request whose Connection header
is the uppercase value CLOSE is derived as not keep-alive. -/
theorem request_wants_keepalive_witness :
    request_wants_keepalive sHTTP11 (some sCloseUpper) = false := by
  rw [(request_wants_keepalive_amended sHTTP11 (some sCloseUpper)).1 (by decide)]
  decide

/-! ## Claim C1 -/

/-- Claim C1 counterexample: a request carrying Transfer-Encoding chunked
together with the non-numeric Content-Length value abc fails read_request
with "invalid content-length" instead of being parsed with chunked framing,
because the source validates Content-Length before consulting
Transfer-Encoding. -/
theorem read_request_framing_cex :
    te_is_chunked (some sChunked) = true ∧
    read_request_framing (some sAbc) (some sChunked) = Except.error errInvalidContentLength := by
  constructor <;> decide

/-- Claim C1 (amended): when the Transfer-Encoding value contains chunked
(case-insensitive), read_request uses chunked framing and the absence or the
parsed value of Content-Length is ignored, provided the Content-Length value
(when present) is accepted by std::stoul; a Content-Length std::stoul
rejects fails the request with "invalid content-length" even though the
Transfer-Encoding is chunked. -/
theorem read_request_framing_amended (cl te : Option Str) (hte : te_is_chunked te = true) :
    (cl = none → read_request_framing cl te = Except.ok BodyFrame.chunked) ∧
    (∀ v n, cl = some v → cpp_stoul v = some n →
      read_request_framing cl te = Except.ok BodyFrame.chunked) ∧
    (∀ v, cl = some v → cpp_stoul v = none →
      read_request_framing cl te = Except.error errInvalidContentLength) := by
  refine ⟨fun h => ?_, fun v n hv hn => ?_, fun v hv hn => ?_⟩
  · subst h
    simp [read_request_framing, hte]
  · subst hv
    simp [read_request_framing, hn, hte]
  · subst hv
    simp [read_request_framing, hn]

/-- Claim C1 witness: Transfer-Encoding Chunked (mixed case) with the
numeric Content-Length 7 parses with chunked framing, the length being
ignored. -/
theorem read_request_framing_witness :
    te_is_chunked (some sChunkedMixed) = true ∧
    read_request_framing (some s7) (some sChunkedMixed) = Except.ok BodyFrame.chunked :=
  ⟨by decide,
   (read_request_framing_amended (some s7) (some sChunkedMixed) (by decide)).2.1 s7 7 rfl (by decide)⟩

/-! ## Claim C5 -/

/-- Range guarantee of parse_host_port: an accepted port lies in [1, 65535]. -/
theorem parse_host_port_range (target : Str) (h : Str) (p : Int)
    (hp : parse_host_port target = some (h, p)) : 1 ≤ p ∧ p ≤ 65535 := by
  unfold parse_host_port at hp
  split at hp
  · cases hp
  · split at hp
    · cases hp
    · split at hp
      · cases hp
      · split at hp
        · next hrange =>
          simp only [Option.some.injEq, Prod.mk.injEq] at hp
          obtain ⟨-, rfl⟩ := hp
          exact hrange
        · cases hp

/-- Claim C5 counterexample: the route target h:80x, whose port portion 80x
is not a well-formed decimal number, is accepted by parse_host_port as host
h with port 80 (std::stoi ignores the trailing junk), so the handler
proceeds instead of replying 502 Bad Gateway. -/
theorem parse_host_port_cex :
    parse_host_port sPort80x = some (sH, 80) ∧ claim_host_port_form sPort80x = false := by
  constructor <;> decide

/-- Claim C5 (amended): the forwarding handler proceeds exactly when
parse_host_port accepts the target: the last colon must be neither first nor
last character, and std::stoi must read a decimal value in [1, 65535] from
the port portion — std::stoi skips leading whitespace, accepts a sign, and
ignores trailing junk, so a port portion need not be a well-formed decimal
number in its entirety. Any rejected target produces the 502 Bad Gateway
step, and every accepted port lies in [1, 65535]. -/
theorem handle_client_target_amended (req : ReqView) (lookup : Str → Option Str) (target : Str)
    (hpath : req.path ≠ healthPath) (hhost : req.normalized_host ≠ [])
    (hroute : lookup req.normalized_host = some target) :
    (parse_host_port target = none →
      handle_client_dispatch req lookup = HandlerStep.badGatewayInvalidTarget) ∧
    (∀ h p, parse_host_port target = some (h, p) →
      handle_client_dispatch req lookup = HandlerStep.forward h p ∧ 1 ≤ p ∧ p ≤ 65535) := by
  constructor
  · intro hnone
    simp [handle_client_dispatch, hpath, hhost, hroute, hnone]
  · intro h p hsome
    refine ⟨?_, parse_host_port_range target h p hsome⟩
    simp [handle_client_dispatch, hpath, hhost, hroute, hsome]

/-- Claim C5 witness: the malformed target :80 (empty host) is rejected and
the handler replies 502 Bad Gateway. -/
theorem handle_client_target_witness :
    handle_client_dispatch reqPlain lookupColon80 = HandlerStep.badGatewayInvalidTarget :=
  (handle_client_target_amended reqPlain lookupColon80 sColon80
    (by decide) (by decide) (by decide)).1 (by decide)

/-! ## Claim C10 -/

/-- Claim C10: the health intercept matches on the request path alone, before
the Host-presence check and the route lookup, so every request whose path is
/_flow/domains/health — any method, any (possibly absent) Host header — gets
the inline health response, whose bytes begin with the 200 OK status line. -/
theorem health_intercept_first (req : ReqView) (lookup : Str → Option Str)
    (hpath : req.path = healthPath) :
    handle_client_dispatch req lookup = HandlerStep.healthOk req.client_wants_keepalive ∧
    (∀ body keepalive, ∃ rest, health_response body keepalive = sHealth200Head ++ rest) := by
  constructor
  · simp [handle_client_dispatch, hpath]
  · intro body keepalive
    exact ⟨_, rfl⟩

/-- Claim C10 witness: a POST request carrying no Host header (empty
normalized_host) whose path is the health path is answered inline with the
health response. -/
theorem health_intercept_witness :
    handle_client_dispatch reqHealthNoHost (fun _ => none) = HandlerStep.healthOk true ∧
    (∃ rest, health_response sNL true = sHealth200Head ++ rest) :=
  ⟨(health_intercept_first reqHealthNoHost (fun _ => none) rfl).1,
   (health_intercept_first reqHealthNoHost (fun _ => none) rfl).2 sNL true⟩

/-! ## Claim C8 -/

/-- Claim C8 counterexample: the parse error "client closed before full
request body" begins with "client closed", yet handle_client replies 400 Bad
Request for it rather than exiting silently — the silent exit applies only
to the two exact between-message disconnect strings. -/
theorem handle_parse_error_cex :
    sClientClosed.isPrefixOf errClientClosedBeforeBody = true ∧
    handle_parse_error errClientClosedBeforeBody =
      some (send_simple_response 400 sBadRequestReason (errClientClosedBeforeBody ++ sNL)) := by
  constructor
  · decide
  · rfl

/-- Claim C8 (amended): the handler exits silently without writing a
response exactly when the parse error is empty or is one of the two exact
strings "client closed before request" and "client closed connection"; every
other parse error — including "client closed before full request body",
which also begins with "client closed" — is answered with a 400 Bad Request
response carrying the error text and the handler exits. -/
theorem handle_parse_error_amended (err : Str) :
    (handle_parse_error err = none ↔
      (err = [] ∨ err = errClientClosedBeforeRequest ∨ err = errClientClosedConnection)) ∧
    (err ≠ [] → err ≠ errClientClosedBeforeRequest → err ≠ errClientClosedConnection →
      handle_parse_error err =
        some (send_simple_response 400 sBadRequestReason (err ++ sNL))) := by
  constructor
  · unfold handle_parse_error
    split
    · next h =>
      constructor
      · intro hc
        cases hc
      · intro hd
        rcases hd with h1 | h1 | h1
        · exact absurd h1 h.1
        · exact absurd h1 h.2.1
        · exact absurd h1 h.2.2
    · next h =>
      push_neg at h
      constructor
      · intro _
        by_cases h1 : err = []
        · exact Or.inl h1
        by_cases h2 : err = errClientClosedBeforeRequest
        · exact Or.inr (Or.inl h2)
        exact Or.inr (Or.inr (h h1 h2))
      · intro _
        rfl
  · intro h1 h2 h3
    unfold handle_parse_error
    rw [if_pos ⟨h1, h2, h3⟩]

/-- Claim C8 witness: a recv failure message is answered with the 400
response carrying the error text. -/
theorem handle_parse_error_witness :
    handle_parse_error sRecvFailed =
      some (send_simple_response 400 sBadRequestReason (sRecvFailed ++ sNL)) :=
  (handle_parse_error_amended sRecvFailed).2 (by decide) (by decide) (by decide)

/-! ## Claim C7 -/

theorem dropWhile_head_not (p : Char → Bool) :
    ∀ (l : Str) (c : Char) (r : Str), l.dropWhile p = c :: r → p c = false := by
  intro l
  induction l with
  | nil => intro c r h; cases h
  | cons x xs ih =>
    intro c r h
    rw [List.dropWhile_cons] at h
    split at h
    · exact ih c r h
    · next hx =>
      cases h
      exact Bool.eq_false_iff.mpr hx

theorem tokenAux_skip : ∀ l : Str, tokenAux l [] = tokenAux (l.dropWhile cspace) [] := by
  intro l
  induction l with
  | nil => rfl
  | cons x xs ih =>
    by_cases hx : cspace x
    · simp [tokenAux, hx, List.dropWhile_cons, ih]
    · simp [tokenAux, hx, List.dropWhile_cons]

theorem tokenAux_run :
    ∀ (l : Str) (acc : Str), (acc ≠ [] ∨ ∃ c r, l = c :: r ∧ cspace c = false) →
      tokenAux l acc =
        (acc.reverse ++ l.takeWhile (fun c => !cspace c)) ::
          tokenAux (l.dropWhile (fun c => !cspace c)) [] := by
  intro l
  induction l with
  | nil =>
    intro acc h
    have hacc : acc ≠ [] := by
      rcases h with h | ⟨c, r, hcr, -⟩
      · exact h
      · cases hcr
    simp [tokenAux, hacc]
  | cons x xs ih =>
    intro acc h
    by_cases hx : cspace x = true
    · have hacc : acc ≠ [] := by
        rcases h with h | ⟨c, r, hcr, hc⟩
        · exact h
        · cases hcr
          rw [hx] at hc
          cases hc
      simp [tokenAux, hx, hacc]
    · have hx' : cspace x = false := Bool.eq_false_iff.mpr hx
      have hstep : tokenAux (x :: xs) acc = tokenAux xs (x :: acc) := by
        simp [tokenAux, hx']
      rw [hstep, ih (x :: acc) (Or.inl (by simp))]
      simp [List.takeWhile_cons, List.dropWhile_cons, hx', List.append_assoc]

theorem wsTokens_readToken_none (l : Str) (h : readToken l = none) : wsTokens l = [] := by
  cases hd : l.dropWhile cspace with
  | nil =>
    unfold wsTokens
    rw [tokenAux_skip l, hd]
    rfl
  | cons c cr =>
    unfold readToken at h
    rw [hd] at h
    exact Option.noConfusion h

theorem wsTokens_readToken_some (l t r : Str) (h : readToken l = some (t, r)) :
    wsTokens l = t :: wsTokens r := by
  cases hd : l.dropWhile cspace with
  | nil =>
    unfold readToken at h
    rw [hd] at h
    exact Option.noConfusion h
  | cons c cr =>
    unfold readToken at h
    rw [hd] at h
    simp only [Option.some.injEq, Prod.mk.injEq] at h
    obtain ⟨ht, hr⟩ := h
    subst ht
    subst hr
    have hc : cspace c = false := dropWhile_head_not cspace l c cr hd
    unfold wsTokens
    rw [tokenAux_skip l, hd]
    rw [tokenAux_run (c :: cr) [] (Or.inr ⟨c, cr, rfl, hc⟩)]
    simp

/-- Claim C7 counterexample: the request line GET / HTTP/1.1 extra is not of
the exact form METHOD SP PATH SP VERSION (it has a fourth token), yet
istringstream extraction accepts it, yielding method GET, path /, version
HTTP/1.1 and silently discarding the rest — the parse does not fail with
"invalid request line". -/
theorem parse_request_line_cex :
    parse_request_line sReqLineExtra = Except.ok (sGET, sSlash, sHTTP11) ∧
    claim_request_line_form sReqLineExtra = false := by
  constructor <;> decide

/-- Claim C7 (amended): request-line parsing succeeds exactly when the line
contains at least three whitespace-separated tokens; the first three become
method, path and version (separators are arbitrary nonempty whitespace runs,
and anything after the third token is ignored); with fewer than three tokens
the request fails with "invalid request line". -/
theorem parse_request_line_amended (line : Str) :
    parse_request_line line =
      (match wsTokens line with
       | m :: p :: v :: _ => Except.ok (m, p, v)
       | _ => Except.error errInvalidRequestLine) := by
  cases h1 : readToken line with
  | none =>
    rw [wsTokens_readToken_none line h1]
    simp [parse_request_line, h1]
  | some t1 =>
    obtain ⟨m, r1⟩ := t1
    rw [wsTokens_readToken_some line m r1 h1]
    cases h2 : readToken r1 with
    | none =>
      rw [wsTokens_readToken_none r1 h2]
      simp [parse_request_line, h1, h2]
    | some t2 =>
      obtain ⟨p, r2⟩ := t2
      rw [wsTokens_readToken_some r1 p r2 h2]
      cases h3 : readToken r2 with
      | none =>
        rw [wsTokens_readToken_none r2 h3]
        simp [parse_request_line, h1, h2, h3]
      | some t3 =>
        obtain ⟨v, r3⟩ := t3
        rw [wsTokens_readToken_some r2 v r3 h3]
        simp [parse_request_line, h1, h2, h3]

/-! ## Claim C6 -/

theorem no_body_flag_iff (method : Str) (code : Int) :
    no_body_flag method code = true ↔
      (to_lower method = sHead ∨ (100 ≤ code ∧ code < 200 ∧ code ≠ 101) ∨
        code = 204 ∨ code = 304) := by
  simp [no_body_flag, Bool.or_eq_true, Bool.and_eq_true, decide_eq_true_eq]
  tauto

/-- Claim C6: for every successfully parsed upstream response head, no_body
is true exactly when the request method is HEAD case-insensitively, or the
status is 204 or 304, or an informational 1xx other than 101; and whenever
no_body is true the response is framed as bodyless — the chunked flag is
forced to false and the declared content length is overwritten, so neither
influences framing. -/
theorem parse_response_no_body (raw method : Str) (meta : ResponseMeta)
    (h : parse_response_headers raw method = some meta) :
    (meta.no_body = true ↔
      (to_lower method = sHead ∨
        (100 ≤ meta.status_code ∧ meta.status_code < 200 ∧ meta.status_code ≠ 101) ∨
        meta.status_code = 204 ∨ meta.status_code = 304)) ∧
    (meta.no_body = true →
      response_framing meta = RespFrame.noBody ∧ meta.chunked = false ∧
        meta.content_length = some 0) := by
  unfold parse_response_headers at h
  split at h
  · cases h
  split at h
  · cases h
  split at h
  · cases h
  all_goals
    simp only [Option.some.injEq] at h
    subst h
    constructor
  all_goals try simpa using no_body_flag_iff method _
  all_goals
    intro hnb
    simp at hnb
    refine ⟨?_, by simp [hnb], by simp [hnb]⟩
    simp [response_framing, hnb]

/-- Claim C6 witness: a 204 response to a GET that declares both
Transfer-Encoding chunked and Content-Length 5 parses with no_body true,
chunked forced off, content length overwritten, and bodyless framing. -/
theorem parse_response_no_body_witness :
    response_framing metaResp204 = RespFrame.noBody ∧ metaResp204.chunked = false ∧
      metaResp204.content_length = some 0 :=
  (parse_response_no_body rawResp204 methodGET metaResp204 (by decide)).2 (by decide)

/-! ## Claim C2 -/

theorem reapConns_len (cfg : PoolCfg) (now : Nat) (probe : Int → Bool) :
    ∀ l : List PooledConn, (reapConns cfg now probe l).1.length ≤ l.length := by
  intro l
  induction l with
  | nil => simp [reapConns]
  | cons c rest ih =>
    simp only [reapConns]
    split
    · simp only [List.length_cons]
      omega
    · simp only [List.length_cons]
      omega

theorem reapAll_bound (cfg : PoolCfg) (now : Nat) (probe : Int → Bool) (cap : Nat) :
    ∀ bk : List (Str × List PooledConn),
      (∀ e ∈ bk, e.2.length ≤ cap) →
      ∀ e ∈ (reapAll cfg now probe bk).1, e.2.length ≤ cap := by
  intro bk
  induction bk with
  | nil =>
    intro _ e he
    simp [reapAll] at he
  | cons f rest ih =>
    intro hb e he
    simp only [reapAll] at he
    split at he
    · exact ih (fun x hx => hb x (List.mem_cons_of_mem f hx)) e he
    · rcases List.mem_cons.mp he with rfl | hmem
      · have h1 : (reapConns cfg now probe f.2).1.length ≤ f.2.length :=
          reapConns_len cfg now probe f.2
        have h2 : f.2.length ≤ cap := hb f (List.mem_cons_self f rest)
        simpa using le_trans h1 h2
      · exact ih (fun x hx => hb x (List.mem_cons_of_mem f hx)) e hmem

theorem reap_locked_inv (cfg : PoolCfg) (now : Nat) (probe : Int → Bool) (st : PoolState)
    (h : PoolInv cfg st) : PoolInv cfg (reap_locked cfg now probe st) := by
  obtain ⟨h1, h2⟩ := h
  refine ⟨?_, ?_⟩
  · exact le_trans (Nat.sub_le _ _) h1
  · exact reapAll_bound cfg now probe cfg.maxIdlePerKey st.byKey h2

theorem reap_locked_total_le (cfg : PoolCfg) (now : Nat) (probe : Int → Bool) (st : PoolState) :
    (reap_locked cfg now probe st).idleTotal ≤ st.idleTotal :=
  Nat.sub_le _ _

theorem lookupKey_mem (k : Str) :
    ∀ bk : List (Str × List PooledConn), ∀ v, lookupKey k bk = some v → (k, v) ∈ bk := by
  intro bk
  induction bk with
  | nil => intro v h; cases h
  | cons e rest ih =>
    intro v h
    simp only [lookupKey] at h
    split at h
    · next heq =>
      cases h
      exact List.mem_cons.mpr (Or.inl (by rw [← heq]))
    · exact List.mem_cons_of_mem e (ih v h)

theorem setKey_mem (k : Str) (v : List PooledConn) :
    ∀ bk : List (Str × List PooledConn), ∀ e ∈ setKey k v bk, e = (k, v) ∨ e ∈ bk := by
  intro bk
  induction bk with
  | nil =>
    intro e he
    simp only [setKey] at he
    exact Or.inl (List.mem_singleton.mp he)
  | cons f rest ih =>
    intro e he
    simp only [setKey] at he
    split at he
    · rcases List.mem_cons.mp he with heq | hmem
      · exact Or.inl heq
      · exact Or.inr (List.mem_cons_of_mem f hmem)
    · rcases List.mem_cons.mp he with heq | hmem
      · exact Or.inr (by rw [heq]; exact List.mem_cons_self f rest)
      · rcases ih e hmem with h | h
        · exact Or.inl h
        · exact Or.inr (List.mem_cons_of_mem f h)

theorem setKey_bound (cfg : PoolCfg) (k : Str) (v : List PooledConn)
    (bk : List (Str × List PooledConn))
    (hb : ∀ e ∈ bk, e.2.length ≤ cfg.maxIdlePerKey) (hv : v.length ≤ cfg.maxIdlePerKey) :
    ∀ e ∈ setKey k v bk, e.2.length ≤ cfg.maxIdlePerKey := by
  intro e he
  rcases setKey_mem k v bk e he with rfl | h
  · exact hv
  · exact hb e h

theorem byKeyEntry_bound (cfg : PoolCfg) (k : Str) (bk : List (Str × List PooledConn))
    (hb : ∀ e ∈ bk, e.2.length ≤ cfg.maxIdlePerKey) :
    (byKeyEntry k bk).length ≤ cfg.maxIdlePerKey := by
  unfold byKeyEntry
  cases hl : lookupKey k bk with
  | none => simp
  | some v => exact hb (k, v) (lookupKey_mem k bk v hl)

theorem acquireLoopRev_total (cfg : PoolCfg) (now : Nat) (probe : Int → Bool) :
    ∀ (l : List PooledConn) (it : Nat),
      (acquireLoopRev cfg now probe l it).2.2.1 ≤ it := by
  intro l
  induction l with
  | nil => intro it; simp [acquireLoopRev]
  | cons c rest ih =>
    intro it
    simp only [acquireLoopRev]
    split
    · exact Nat.sub_le _ _
    · exact le_trans (ih (it - 1)) (Nat.sub_le _ _)

theorem acquireLoopRev_len (cfg : PoolCfg) (now : Nat) (probe : Int → Bool) :
    ∀ (l : List PooledConn) (it : Nat),
      (acquireLoopRev cfg now probe l it).2.1.length ≤ l.length := by
  intro l
  induction l with
  | nil => intro it; simp [acquireLoopRev]
  | cons c rest ih =>
    intro it
    simp only [acquireLoopRev]
    split
    · simp
    · simp only [List.length_cons]
      exact le_trans (ih (it - 1)) (Nat.le_succ _)

theorem pool_acquire_inv (cfg : PoolCfg) (now : Nat) (probe : Int → Bool) (key : Str)
    (st : PoolState) (h : PoolInv cfg st) : PoolInv cfg (pool_acquire cfg now probe key st).1 := by
  have h1 := reap_locked_inv cfg now probe st h
  simp only [pool_acquire]
  split
  · exact h1
  · next conns hl =>
    obtain ⟨ht, hb⟩ := h1
    refine ⟨?_, ?_⟩
    · exact le_trans (acquireLoopRev_total cfg now probe conns.reverse _) ht
    · apply setKey_bound cfg key _ _ hb
      have hc : conns.length ≤ cfg.maxIdlePerKey :=
        hb (key, conns) (lookupKey_mem key _ conns hl)
      have := acquireLoopRev_len cfg now probe conns.reverse
        (reap_locked cfg now probe st).idleTotal
      simp only [List.length_reverse] at *
      omega

theorem pool_release_inv (cfg : PoolCfg) (now : Nat) (probe : Int → Bool) (key : Str)
    (fd : Int) (st : PoolState) (h : PoolInv cfg st) :
    PoolInv cfg (pool_release cfg now probe key fd st) := by
  simp only [pool_release]
  split
  · exact h
  split
  · exact ⟨h.1, h.2⟩
  have h1 := reap_locked_inv cfg now probe st h
  obtain ⟨ht, hb⟩ := h1
  split
  · exact ⟨ht, hb⟩
  next hlt =>
  split
  · next hcap =>
    refine ⟨ht, ?_⟩
    exact setKey_bound cfg key _ _ hb (byKeyEntry_bound cfg key _ hb)
  · next hcap =>
    push_neg at hlt hcap
    refine ⟨?_, ?_⟩
    · show (reap_locked cfg now probe st).idleTotal + 1 ≤ cfg.maxIdleTotal
      omega
    · apply setKey_bound cfg key _ _ hb
      simp only [List.length_append, List.length_cons, List.length_nil]
      omega

theorem pool_step_inv (cfg : PoolCfg) (st : PoolState) (op : PoolOp)
    (h : PoolInv cfg st) : PoolInv cfg (pool_step cfg st op) := by
  cases op with
  | acq k now p => exact pool_acquire_inv cfg now p k st h
  | rel k fd now p => exact pool_release_inv cfg now p k fd st h

theorem pool_foldl_inv (cfg : PoolCfg) :
    ∀ (ops : List PoolOp) (st : PoolState), PoolInv cfg st →
      PoolInv cfg (List.foldl (pool_step cfg) st ops) := by
  intro ops
  induction ops with
  | nil => intro st h; exact h
  | cons op rest ih =>
    intro st h
    exact ih (pool_step cfg st op) (pool_step_inv cfg st op h)

/-- Claim C2: for every sequence of acquire and release calls starting from
the empty pool, idle_total never exceeds pool_max_idle_total and no per-key
idle list ever holds more than pool_max_idle_per_key entries; and release
closes the socket instead of parking it when the liveness probe fails, when
the global idle cap is reached, or when the per-key cap is reached, and
otherwise appends it with last_used_at (and created_at) set to now,
incrementing idle_total. -/
theorem upstream_pool_caps :
    (∀ (cfg : PoolCfg) (ops : List PoolOp), PoolInv cfg (pool_run cfg ops)) ∧
    (∀ (cfg : PoolCfg) (now : Nat) (probe : Int → Bool) (key : Str) (fd : Int) (st : PoolState),
      ¬ fd < 0 → probe fd = false →
      pool_release cfg now probe key fd st = { st with closed := st.closed ++ [fd] }) ∧
    (∀ (cfg : PoolCfg) (now : Nat) (probe : Int → Bool) (key : Str) (fd : Int) (st : PoolState),
      ¬ fd < 0 → probe fd = true →
      cfg.maxIdleTotal ≤ (reap_locked cfg now probe st).idleTotal →
      pool_release cfg now probe key fd st =
        { reap_locked cfg now probe st with
            closed := (reap_locked cfg now probe st).closed ++ [fd] }) ∧
    (∀ (cfg : PoolCfg) (now : Nat) (probe : Int → Bool) (key : Str) (fd : Int) (st : PoolState),
      ¬ fd < 0 → probe fd = true →
      (reap_locked cfg now probe st).idleTotal < cfg.maxIdleTotal →
      cfg.maxIdlePerKey ≤ (byKeyEntry key (reap_locked cfg now probe st).byKey).length →
      pool_release cfg now probe key fd st =
        { byKey := setKey key (byKeyEntry key (reap_locked cfg now probe st).byKey)
            (reap_locked cfg now probe st).byKey
        , idleTotal := (reap_locked cfg now probe st).idleTotal
        , closed := (reap_locked cfg now probe st).closed ++ [fd] }) ∧
    (∀ (cfg : PoolCfg) (now : Nat) (probe : Int → Bool) (key : Str) (fd : Int) (st : PoolState),
      ¬ fd < 0 → probe fd = true →
      (reap_locked cfg now probe st).idleTotal < cfg.maxIdleTotal →
      (byKeyEntry key (reap_locked cfg now probe st).byKey).length < cfg.maxIdlePerKey →
      pool_release cfg now probe key fd st =
        { byKey := setKey key (byKeyEntry key (reap_locked cfg now probe st).byKey ++
            [{ fd := fd, created_at := now, last_used_at := now }])
            (reap_locked cfg now probe st).byKey
        , idleTotal := (reap_locked cfg now probe st).idleTotal + 1
        , closed := (reap_locked cfg now probe st).closed }) := by
  refine ⟨?_, ?_, ?_, ?_, ?_⟩
  · intro cfg ops
    unfold pool_run
    apply pool_foldl_inv
    constructor
    · exact Nat.zero_le _
    · intro e he
      simp [pool_empty] at he
  · intro cfg now probe key fd st h0 hp
    simp only [pool_release]
    rw [if_neg h0, if_pos hp]
  · intro cfg now probe key fd st h0 hp hcap
    simp only [pool_release]
    rw [if_neg h0, if_neg (by simp [hp]), if_pos hcap]
  · intro cfg now probe key fd st h0 hp hlt hcap
    simp only [pool_release]
    rw [if_neg h0, if_neg (by simp [hp]), if_neg (not_le.mpr hlt), if_pos hcap]
  · intro cfg now probe key fd st h0 hp hlt hcap
    simp only [pool_release]
    rw [if_neg h0, if_neg (by simp [hp]), if_neg (not_le.mpr hlt), if_neg (not_le.mpr hcap)]

/-- Claim C2 witness: the capacity invariant holds after a concrete
release / release / acquire / release sequence under caps 1 per key and 2
total, and a probe-failing release from the empty pool closes the socket
without parking it. -/
theorem upstream_pool_caps_witness :
    PoolInv cfgSmall (pool_run cfgSmall opsSmall) ∧
    pool_release cfgSmall 0 (fun _ => false) sK 3 pool_empty =
      { pool_empty with closed := pool_empty.closed ++ [(3 : Int)] } :=
  ⟨upstream_pool_caps.1 cfgSmall opsSmall,
   upstream_pool_caps.2.1 cfgSmall 0 (fun _ => false) sK 3 pool_empty (by decide) rfl⟩

/-! ## Claim C9 -/

theorem relay_trailer_some (cursor : Nat) :
    ∀ (f : Nat) (buf : Str) (inc : List Str) (fb : Str) (e : Nat),
      relay_trailer_loop f buf cursor inc = some (fb, e) →
      ∃ p, findFrom sCRLF2 fb cursor = some p ∧ e = p + 4 := by
  intro f
  induction f with
  | zero => intro buf inc fb e h; exact Option.noConfusion h
  | succ f ih =>
    intro buf inc fb e h
    cases inc with
    | nil =>
      simp only [relay_trailer_loop] at h
      split at h
      · next p hp =>
        simp only [Option.some.injEq, Prod.mk.injEq] at h
        obtain ⟨rfl, rfl⟩ := h
        exact ⟨p, hp, rfl⟩
      · exact Option.noConfusion h
    | cons c rest =>
      simp only [relay_trailer_loop] at h
      split at h
      · next p hp =>
        simp only [Option.some.injEq, Prod.mk.injEq] at h
        obtain ⟨rfl, rfl⟩ := h
        exact ⟨p, hp, rfl⟩
      · exact ih (buf ++ c) rest fb e h

theorem relay_chunk_some :
    ∀ (f : Nat) (buf : Str) (cursor : Nat) (inc : List Str) (fb : Str) (e : Nat),
      relay_chunked_loop f buf cursor inc = some (fb, e) →
      ∃ c p, findFrom sCRLF2 fb c = some p ∧ e = p + 4 := by
  intro f
  induction f with
  | zero => intro buf cursor inc fb e h; exact Option.noConfusion h
  | succ f ih =>
    intro buf cursor inc fb e h
    simp only [relay_chunked_loop] at h
    split at h
    · split at h
      · exact Option.noConfusion h
      · exact ih _ _ _ _ _ h
    · split at h
      · exact Option.noConfusion h
      · split at h
        · split at h
          · exact Option.noConfusion h
          · exact ih _ _ _ _ _ h
        · split at h
          · split at h
            · obtain ⟨p, hp, he⟩ := relay_trailer_some _ f _ _ fb e h
              exact ⟨_, p, hp, he⟩
            · exact ih _ _ _ _ _ h
          · exact Option.noConfusion h

/-- Claim C9: the chunked relay reports the body complete only when the
bytes received from the upstream end exactly at the final trailer terminator
CRLFCRLF — on a complete result the final buffer has the terminator as its
very last bytes with nothing beyond; and whenever the relay reports
incomplete, the chunked branch of relay_response_and_decide_reuse yields an
outcome under which handle_client discards the upstream socket and closes
the client connection regardless of the client's keep-alive wish. -/
theorem relay_chunked_exact (initial : Str) (inc : List Str) :
    (relay_chunked_body initial inc = true →
      ∃ fb, relay_chunked_loop (relay_fuel initial inc) initial 0 inc = some (fb, fb.length) ∧
        List.IsSuffix sCRLF2 fb) ∧
    (relay_chunked_body initial inc = false →
      ∀ (connection_close client_wants : Bool),
        upstream_kept
          (chunked_relay_outcome (relay_chunked_body initial inc) connection_close) = false ∧
        client_loop_continues
          (chunked_relay_outcome (relay_chunked_body initial inc) connection_close)
          client_wants = false) := by
  constructor
  · intro h
    unfold relay_chunked_body at h
    split at h
    · next fb e hloop =>
      have he : e = fb.length := of_decide_eq_true h
      subst he
      obtain ⟨c, p, hp, hep⟩ := relay_chunk_some _ initial 0 inc fb _ hloop
      obtain ⟨hcp, htake, hlen⟩ := findFrom_spec sCRLF2 fb c p (by decide) hp
      refine ⟨fb, hloop, ?_⟩
      have h4 : sCRLF2.length = 4 := by decide
      rw [h4] at htake hlen
      have hdl : (fb.drop p).length = 4 := by
        rw [List.length_drop]
        omega
      have hdrop : fb.drop p = sCRLF2 := by
        rw [← htake]
        conv_lhs => rw [← List.take_length (fb.drop p), hdl]
      exact ⟨fb.take p, by rw [← hdrop]; exact List.take_append_drop p fb⟩
    · cases h
  · intro h connection_close client_wants
    rw [h]
    constructor
    · simp [upstream_kept, chunked_relay_outcome]
    · simp [client_loop_continues, chunked_relay_outcome]

/-- Claim C9 witness: the upstream bytes 0 CRLF CRLF CRLF CRLF end exactly at
the trailer terminator and the relay reports complete with the terminator as
the final bytes; the same stream with one extra byte X reports incomplete
and the handler discards the upstream socket. -/
theorem relay_chunked_exact_witness :
    (∃ fb, relay_chunked_loop (relay_fuel bufChunkExact []) bufChunkExact 0 [] =
        some (fb, fb.length) ∧ List.IsSuffix sCRLF2 fb) ∧
    upstream_kept (chunked_relay_outcome (relay_chunked_body bufChunkExtra []) false) = false :=
  ⟨(relay_chunked_exact bufChunkExact []).1 (by decide),
   ((relay_chunked_exact bufChunkExtra []).2 (by decide) false true).1⟩
